import Mathlib

/-!
Verification development for the collaborative route-editing backend.

The Rust source is shallowly embedded:
* `serde_json::Value` becomes the inductive `Json` below; `f64` coordinate
  values are modelled as exact rationals `ℚ`.
* The Postgres tables (`routes`, `route_versions`, `route_point_changes`,
  `route_editing_sessions`) become lists of rows inside `Db`.  `created_at`
  timestamps are nondecreasing in insertion order, so `ORDER BY created_at
  DESC LIMIT 1` is modelled as "last inserted row".
* Each HTTP handler becomes a function `Ctx → Db → ... → Except HErr α × Db`.
  A transaction is modelled by threading a working copy of the database and
  returning the *original* database on every error path (rollback); the
  returned database is the committed one only on `.ok`.  Infrastructure
  failures (connection/statement/commit failures) are injected through the
  oracle `Ctx.infra : Nat → Bool`, consulted once per database round trip.
* Row-level-security policies live in the database; they are modelled here
  exactly as the handler comments in the source describe them
  (e.g. "Owner create route versions" requires `owner_id = auth.uid()`).
-/

/-- Model of `serde_json::Value`.  Numbers are exact rationals. -/
inductive Json where
  | null : Json
  | bool : Bool → Json
  | num : ℚ → Json
  | str : String → Json
  | arr : List Json → Json
  | obj : List (String × Json) → Json

namespace Json

/-- `value[key]` for a string key (serde's `Index<&str>` on `&Value`):
object lookup, `Null` when missing or when the value is not an object. -/
def key (j : Json) (k : String) : Json :=
  match j with
  | .obj fs => ((fs.find? (fun p => p.1 = k)).map (fun p => p.2)).getD .null
  | _ => .null

/-- `Value::get(usize)`: `Some` element for an in-range array index,
`None` otherwise. -/
def getIdx (j : Json) (i : Nat) : Option Json :=
  match j with
  | .arr xs => xs.get? i
  | _ => none

/-- `Value::as_array()`. -/
def asArr (j : Json) : Option (List Json) :=
  match j with
  | .arr xs => some xs
  | _ => none

/-- `Value::as_f64()` (all numbers in the model are rationals). -/
def asNum (j : Json) : Option ℚ :=
  match j with
  | .num q => some q
  | _ => none

/-- Replace the `i`-th element of an array value (used to model writing
through `get_mut`; no-op on out-of-range or non-array, but callers only use
it after a successful `getIdx`). -/
def setIdx (j : Json) (i : Nat) (v : Json) : Json :=
  match j with
  | .arr xs => .arr (xs.set i v)
  | _ => j

/-- Replace the value of field `k` of an object value. -/
def setKey (j : Json) (k : String) (v : Json) : Json :=
  match j with
  | .obj fs => .obj (fs.map (fun p => if p.1 = k then (p.1, v) else p))
  | _ => j

end Json

/-- Rust `as usize` on an `i32` value (64-bit target): the mathematical
value modulo `2^64`.  A negative index becomes a huge number, hence always
out of range for any actual array. -/
def usizeCast (i : Int) : Nat :=
  (i % (18446744073709551616 : Int)).toNat

-- ============================================
-- Database state
-- ============================================

/-- Row of the `routes` table. -/
structure RouteRow where
  id : Nat
  owner_id : Nat
  control_points : Json
  updated_at : Nat

/-- Row of the append-only `route_versions` table.  `created_at` is
nondecreasing in list order, so the latest version is the last row. -/
structure VersionRow where
  route_id : Nat
  geometry : Json
  created_at : Nat
  created_by : Option Nat

/-- Row of the `route_point_changes` table.  `user_email` is NOT NULL (the
sqlx-checked `PointChange` struct reads it as a plain `String`); the one
insertion path that binds the token's *optional* e-mail claim therefore
fails with a database error when the claim is absent. -/
structure ChangeRow where
  id : Nat
  route_id : Nat
  user_id : Nat
  user_email : String
  feature_index : Int
  point_index : Int
  original_position : Json
  new_position : Json
  status : String
  resolved_at : Option Nat
  resolved_by : Option Nat

/-- Row of the `route_editing_sessions` table (unique per (route, user)). -/
structure SessionRow where
  route_id : Nat
  user_id : Nat
  user_email : String
  started_at : Nat
  last_heartbeat : Nat

/-- The transactional store. -/
structure Db where
  routes : List RouteRow
  versions : List VersionRow
  changes : List ChangeRow
  sessions : List SessionRow

/-- Latest `route_versions` row for a route
(`ORDER BY created_at DESC LIMIT 1` over insertion-ordered rows). -/
def Db.latestVersion (db : Db) (rid : Nat) : Option VersionRow :=
  (db.versions.filter (fun v => v.route_id = rid)).getLast?

/-- `SELECT * FROM routes WHERE id = $1` (routes are publicly readable). -/
def Db.findRoute (db : Db) (rid : Nat) : Option RouteRow :=
  db.routes.find? (fun r => r.id = rid)

/-- `SELECT * FROM route_point_changes WHERE id = $1`. -/
def Db.findChange (db : Db) (cid : Nat) : Option ChangeRow :=
  db.changes.find? (fun c => c.id = cid)

/-- `SELECT ... FROM route_editing_sessions WHERE route_id AND user_id`. -/
def Db.findSession (db : Db) (rid uid : Nat) : Option SessionRow :=
  db.sessions.find? (fun s => s.route_id = rid && s.user_id = uid)

/-- Whether `uid` owns route `rid` — the condition checked by the RLS
policies "Owner create route versions" / "Owners update point changes"
(`EXISTS (SELECT 1 FROM routes WHERE id = route_id AND owner_id = auth.uid())`). -/
def Db.ownsRoute (db : Db) (uid rid : Nat) : Bool :=
  (db.findRoute rid).any (fun r => r.owner_id = uid)

-- ============================================
-- Handler plumbing
-- ============================================

/-- The `StatusCode` outcomes the embedded handlers can produce. -/
inductive HErr where
  | badRequest   -- 400
  | forbidden    -- 403
  | notFound     -- 404
  | internal     -- 500
deriving DecidableEq

/-- Per-request context: authenticated user, the token's optional e-mail
claim, the request timestamp (`NOW()`), and the infrastructure oracle
(`infra n = false` makes the `n`-th database round trip of the request fail
at the connection level, which the handlers surface as 500). -/
structure Ctx where
  user_id : Nat
  token_email : Option String
  now : Nat
  infra : Nat → Bool

-- ============================================
-- `heartbeat_editing_session` (src/routes/editing.rs)
-- ============================================

/-- Embedding of `heartbeat_editing_session`: BEGIN (round trip 0), then
`UPDATE route_editing_sessions SET last_heartbeat = NOW() WHERE route_id =
$1 AND user_id = $2` (round trip 1, result row count ignored), then COMMIT
(round trip 2).  Returns 200 even when no session row matched. -/
def heartbeat_editing_session (ctx : Ctx) (db : Db) (rid : Nat) :
    Except HErr Unit × Db :=
  if ¬ ctx.infra 0 then (.error .internal, db) else
  if ¬ ctx.infra 1 then (.error .internal, db) else
  let db' : Db := { db with
    sessions := db.sessions.map (fun s =>
      if s.route_id = rid ∧ s.user_id = ctx.user_id then
        { s with last_heartbeat := ctx.now }
      else s) }
  if ¬ ctx.infra 2 then (.error .internal, db) else
  (.ok (), db')

-- ============================================
-- `update_point_change_status` (src/routes/editing.rs)
-- ============================================

/-- Read a coordinate of a stored geometry:
`geometry["coordinates"].get(feature_index).and_then(|f| f.get(point_index))`. -/
def getCoord (g : Json) (fi pi : Nat) : Option Json :=
  ((g.key "coordinates").getIdx fi).bind (fun line => line.getIdx pi)

/-- The accepted-change geometry edit of `update_point_change_status`:
`geometry["coordinates"].get_mut(fi).and_then(|f| f.get_mut(pi))`, failing
(`BAD_REQUEST`) when the locator is out of bounds, otherwise overwriting
that coordinate with `newPos`.  (The source would panic on a non-object
geometry via `IndexMut`; stored geometries are always objects.) -/
def applyPointChange (g : Json) (fi pi : Nat) (newPos : Json) : Option Json :=
  match (g.key "coordinates").getIdx fi with
  | none => none
  | some line =>
    match line.getIdx pi with
    | none => none
    | some _ =>
      some (g.setKey "coordinates" ((g.key "coordinates").setIdx fi (line.setIdx pi newPos)))

/-- The control-point rewrite of the accepted branch: `none` when
`control_points` is not an array (then no `UPDATE` is issued at all);
otherwise the array with index `pi` replaced by `{"lng": a, "lat": b}`
when it is in range and `newPos` is a two-element array, and the array
unchanged otherwise. -/
def acceptControlPoints (cp : Json) (pi : Nat) (newPos : Json) : Option Json :=
  match cp with
  | .arr pts =>
      some (.arr (
        match pts.get? pi, newPos with
        | some _, .arr [a, b] => pts.set pi (.obj [("lng", a), ("lat", b)])
        | _, _ => pts))
  | _ => none

/-- Row transformation of `UPDATE routes SET updated_at = NOW() WHERE id =
$1` under the RLS owner policy: only a row with the given id AND owner is
touched. -/
def touchRoute (rid uid now : Nat) (r : RouteRow) : RouteRow :=
  if r.id = rid ∧ r.owner_id = uid then { r with updated_at := now } else r

/-- Row transformation of `UPDATE routes SET control_points = $1 WHERE id =
$2` under the RLS owner policy. -/
def setCp (rid uid : Nat) (newCp : Json) (r : RouteRow) : RouteRow :=
  if r.id = rid ∧ r.owner_id = uid then { r with control_points := newCp } else r

/-- Embedding of `update_point_change_status`.  Database round trips (for
the `infra` oracle) are numbered by their textual position in the handler:
0 BEGIN, 1 fetch change, 2 fetch latest version, 3 insert version,
4 touch `routes.updated_at`, 5 fetch `control_points`, 6 update
`control_points`, 7 status `UPDATE ... RETURNING`, 8 COMMIT.  Row-level
security, as described by the source comments: the change row is readable
by its creator or the route owner (else `RowNotFound` → 404); only the
route owner may insert versions (else → 403); the two `routes` updates
silently affect no row for a non-owner; the status update returns no row
for a non-owner (→ 403).  The handler performs no check that the change is
still `pending` and no validation of the requested status string. -/
def update_point_change_status (ctx : Ctx) (db : Db) (change_id : Nat)
    (status : String) : Except HErr ChangeRow × Db :=
  if ¬ ctx.infra 0 then (.error .internal, db) else
  if ¬ ctx.infra 1 then (.error .internal, db) else
  match db.findChange change_id with
  | none => (.error .notFound, db)
  | some ch =>
    if ¬ (ch.user_id = ctx.user_id ∨ db.ownsRoute ctx.user_id ch.route_id) then
      (.error .notFound, db)
    else
      let step1 : Except HErr Db :=
        if status = "accepted" then
          if ¬ ctx.infra 2 then .error .internal else
          match db.latestVersion ch.route_id with
          | none => .error .internal
          | some ver =>
            match applyPointChange ver.geometry (usizeCast ch.feature_index)
                (usizeCast ch.point_index) ch.new_position with
            | none => .error .badRequest
            | some newGeom =>
              if ¬ ctx.infra 3 then .error .internal else
              if ¬ db.ownsRoute ctx.user_id ch.route_id then .error .forbidden else
              let db1 : Db := { db with versions := db.versions ++
                  [⟨ch.route_id, newGeom, ctx.now, some ctx.user_id⟩] }
              if ¬ ctx.infra 4 then .error .internal else
              let db2 : Db := { db1 with
                routes := db1.routes.map (touchRoute ch.route_id ctx.user_id ctx.now) }
              if ¬ ctx.infra 5 then .error .internal else
              match db2.findRoute ch.route_id with
              | none => .error .internal
              | some route =>
                match acceptControlPoints route.control_points
                    (usizeCast ch.point_index) ch.new_position with
                | none => .ok db2
                | some newCp =>
                  if ¬ ctx.infra 6 then .error .internal else
                  .ok { db2 with
                    routes := db2.routes.map (setCp ch.route_id ctx.user_id newCp) }
        else .ok db
      match step1 with
      | .error e => (.error e, db)
      | .ok db3 =>
        if ¬ ctx.infra 7 then (.error .internal, db) else
        if ¬ db3.ownsRoute ctx.user_id ch.route_id then (.error .forbidden, db) else
        let ch' : ChangeRow := { ch with
          status := status, resolved_at := some ctx.now, resolved_by := some ctx.user_id }
        let db4 : Db := { db3 with changes := db3.changes.map (fun c =>
            if c.id = change_id then ch' else c) }
        if ¬ ctx.infra 8 then (.error .internal, db) else
        (.ok ch', db4)

-- ============================================
-- Concrete fixtures for the resolve workflow
-- ============================================

/-- A stored MultiLineString with one line of two coordinates. -/
def exGeom : Json :=
  .obj [("type", .str "MultiLineString"),
        ("coordinates", .arr [.arr [.arr [.num 0, .num 0], .arr [.num 1, .num 1]]])]

/-- `exGeom` with `coordinates[0][1]` overwritten by `[2, 2]`. -/
def exGeom2 : Json :=
  .obj [("type", .str "MultiLineString"),
        ("coordinates", .arr [.arr [.arr [.num 0, .num 0], .arr [.num 2, .num 2]]])]

/-- Route 1, owned by user 10, with two `{lng, lat}` control points. -/
def exRoute : RouteRow :=
  ⟨1, 10, .arr [.obj [("lng", .num 0), ("lat", .num 0)],
                .obj [("lng", .num 1), ("lat", .num 1)]], 0⟩

/-- The single stored version of route 1. -/
def exVersion : VersionRow := ⟨1, exGeom, 0, none⟩

/-- The route owner acting at time 9, with no infrastructure failures. -/
def exCtxOwner : Ctx := ⟨10, some "owner@example.com", 9, fun _ => true⟩

/-- A point change that was ALREADY resolved (accepted at time 1). -/
def exResolvedChange : ChangeRow :=
  ⟨5, 1, 20, "user@example.com", 0, 1,
   .arr [.num 1, .num 1], .arr [.num 2, .num 2], "accepted", some 1, some 10⟩

/-- Store containing the already-resolved change. -/
def exDbResolved : Db := ⟨[exRoute], [exVersion], [exResolvedChange], []⟩

/-- A pending point change on route 1. -/
def exPendingChange : ChangeRow :=
  ⟨6, 1, 20, "user@example.com", 0, 1,
   .arr [.num 1, .num 1], .arr [.num 2, .num 2], "pending", none, none⟩

/-- Store containing the pending change. -/
def exDbPending : Db := ⟨[exRoute], [exVersion], [exPendingChange], []⟩

/-- A pending change addressing `coordinates[0][5]`, which does not exist
in `exGeom` (out of bounds). -/
def exOobChange : ChangeRow :=
  ⟨8, 1, 20, "user@example.com", 0, 5,
   .arr [.num 1, .num 1], .arr [.num 2, .num 2], "pending", none, none⟩

/-- Store containing the out-of-bounds change. -/
def exDbOob : Db := ⟨[exRoute], [exVersion], [exOobChange], []⟩

/-- `exPendingChange` after a successful accept at time 9 by user 10. -/
def exAcceptedChange : ChangeRow :=
  { exPendingChange with
    status := "accepted", resolved_at := some 9, resolved_by := some 10 }

/-- Route 2, owned by user 10, whose `control_points` array holds only ONE
point although its latest geometry line has two coordinates — the common
situation after routing expands the coordinate list. -/
def exRouteShortCp : RouteRow :=
  ⟨2, 10, .arr [.obj [("lng", .num 0), ("lat", .num 0)]], 0⟩

/-- The single stored version of route 2 (same two-coordinate line). -/
def exVersionShortCp : VersionRow := ⟨2, exGeom, 0, none⟩

/-- A pending change on route 2 addressing `coordinates[0][1]` — in
bounds in the latest geometry, but index 1 does not exist in the
one-element `control_points` array. -/
def exCpSkipChange : ChangeRow :=
  ⟨7, 2, 20, "user@example.com", 0, 1,
   .arr [.num 1, .num 1], .arr [.num 2, .num 2], "pending", none, none⟩

/-- Store containing route 2 and its pending change. -/
def exDbCpSkip : Db := ⟨[exRouteShortCp], [exVersionShortCp], [exCpSkipChange], []⟩

-- ============================================
-- Geometry pipeline (src/geometry/routing.rs, src/geometry/simplification.rs)
-- ============================================

/-- A coordinate pair (longitude, latitude); `f64` modelled as `ℚ`. -/
abbrev Pt := ℚ × ℚ

/-- `p.get("coordinates")`-style lookup (`Value::get(&str)`): `Some` only
for an object that has the key. -/
def Json.getKey (j : Json) (k : String) : Option Json :=
  match j with
  | .obj fs => (fs.find? (fun q => q.1 = k)).map (fun q => q.2)
  | _ => none

/-- One waypoint of the shared point-extraction `filter_map`:
`let arr = p.as_array()?; Some((arr[0].as_f64()?, arr[1].as_f64()?))`.
`.ok none` is a skipped entry; `.error ()` models the Rust index panic
(`arr[0]` on an empty array, or `arr[1]` on a singleton whose head is a
number — `?` short-circuits before `arr[1]` otherwise). -/
def extractPt (p : Json) : Except Unit (Option Pt) :=
  match p with
  | .arr [] => .error ()
  | .arr [x] =>
    match x.asNum with
    | some _ => .error ()
    | none => .ok none
  | .arr (x :: y :: _) =>
    .ok (match x.asNum, y.asNum with
         | some q1, some q2 => some (q1, q2)
         | _, _ => none)
  | _ => .ok none

/-- The whole `filter_map(...).collect()` over one line's entries. -/
def extractPts : List Json → Except Unit (List Pt)
  | [] => .ok []
  | p :: rest => do
    let h ← extractPt p
    let t ← extractPts rest
    match h with
    | some pt => .ok (pt :: t)
    | none => .ok t

/-- Parse one line: `line_coords.as_array().ok_or(anyhow!(...))?` then the
point extraction. -/
def parseLine (line : Json) : Except Unit (List Pt) :=
  match line.asArr with
  | none => .error ()
  | some ps => extractPts ps

/-- Rebuild the `serde_json::json!({"type": "MultiLineString",
"coordinates": ...})` output value. -/
def buildMulti (lines : List (List Pt)) : Json :=
  .obj [("type", .str "MultiLineString"),
        ("coordinates", .arr (lines.map (fun l =>
          .arr (l.map (fun p => .arr [.num p.1, .num p.2])))))]

/-- Observable behavior of one Mapbox Directions call.  A route is its
`geometry.coordinates` list (well-formed coordinate pairs assumed: the
source would panic on a shorter inner array). -/
inductive MapboxOutcome where
  | sendErr    -- transport-level failure of the request itself (`send().await?`)
  | httpErr    -- response with a non-success HTTP status
  | badBody    -- body deserialization failure (`response.json().await?`)
  | ok (routes : List (List Pt))

/-- External collaborators of the router: the curated-track spatial index
(`near` = `is_near_curated_track`, `snap` = the two-CTE snap query, both of
which can fail as store errors) and the Mapbox Directions service.  A
`snap` result is (snapped start, snapped end, stored track confidence). -/
structure RoutingOracles where
  near : Pt → Except Unit Bool
  snap : Pt → Pt → Except Unit (Option (Pt × Pt × Int))
  mapbox : Pt → Pt → MapboxOutcome

/-- Embedding of `route_via_curated_tracks`: snap both endpoints to the
nearest track and connect them straight (confidence = stored / 5), falling
back to the raw straight segment with confidence 0.3 when no track row is
returned; a spatial-index failure propagates. -/
def route_via_curated_tracks (o : RoutingOracles) (a b : Pt) :
    Except Unit (List Pt × ℚ) := do
  match ← o.snap a b with
  | some (s, t, conf) => .ok ([s, t], (conf : ℚ) / 5)
  | none => .ok ([a, b], 3/10)

/-- Embedding of `route_via_mapbox`: an empty token, a non-success HTTP
status, or an empty route list fall back to the straight segment with
confidence 0.5; a transport failure or an undeserializable body is
propagated by `?`; a first route is returned with confidence 0.9. -/
def route_via_mapbox (token : String) (o : RoutingOracles) (a b : Pt) :
    Except Unit (List Pt × ℚ) :=
  if token = "" then .ok ([a, b], 1/2)
  else
    match o.mapbox a b with
    | .sendErr => .error ()
    | .httpErr => .ok ([a, b], 1/2)
    | .badBody => .error ()
    | .ok routes =>
      match routes with
      | r :: _ => .ok (r, 9/10)
      | [] => .ok ([a, b], 1/2)

/-- One consecutive waypoint pair of `route_geometry`'s inner loop: both
endpoints near a curated track → off-road routing, otherwise Mapbox. -/
def routeSegment (token : String) (o : RoutingOracles) (p q : Pt) :
    Except Unit (List Pt × ℚ) := do
  let sn ← o.near p
  let en ← o.near q
  if sn && en then route_via_curated_tracks o p q
  else route_via_mapbox token o p q

/-- The per-line loop of `route_geometry`: emit each waypoint, then the
chosen segment's points minus its duplicated head; returns the routed line
together with the summed segment confidence and the segment count. -/
def routeLine (token : String) (o : RoutingOracles) : List Pt →
    Except Unit (List Pt × ℚ × Nat)
  | [] => .ok ([], 0, 0)
  | [p] => .ok ([p], 0, 0)
  | p :: q :: rest => do
    let sc ← routeSegment token o p q
    let t ← routeLine token o (q :: rest)
    .ok (p :: (sc.1.drop 1 ++ t.1), sc.2 + t.2.1, t.2.2 + 1)

/-- The outer loop of `route_geometry` over the input lines: empty
point lists are skipped (`continue`), empty routed lines are dropped, and
confidence/segment-count accumulate across all lines. -/
def routeLines (token : String) (o : RoutingOracles) : List Json →
    Except Unit (List (List Pt) × ℚ × Nat)
  | [] => .ok ([], 0, 0)
  | l :: rest => do
    let pts ← parseLine l
    if pts.isEmpty then routeLines token o rest
    else do
      let r ← routeLine token o pts
      let t ← routeLines token o rest
      .ok ((if r.1.isEmpty then t.1 else r.1 :: t.1), r.2.1 + t.2.1, r.2.2 + t.2.2)

/-- Embedding of `route_geometry`: hybrid routing of a MultiLineString,
returning the routed geometry and the average per-segment confidence
(0 when there was no segment). -/
def route_geometry (token : String) (o : RoutingOracles) (g : Json) :
    Except Unit (Json × ℚ) :=
  match (g.key "coordinates").asArr with
  | none => .error ()
  | some ls => do
    let r ← routeLines token o ls
    .ok (buildMulti r.1, if r.2.2 > 0 then r.2.1 / (r.2.2 : ℚ) else 0)

/-- The list of per-segment confidences of one line, in loop order. -/
def segConfsLine (token : String) (o : RoutingOracles) : List Pt →
    Except Unit (List ℚ)
  | [] => .ok []
  | [_] => .ok []
  | p :: q :: rest => do
    let sc ← routeSegment token o p q
    let t ← segConfsLine token o (q :: rest)
    .ok (sc.2 :: t)

/-- The list of per-segment confidences of the whole input, in loop order. -/
def segConfsLines (token : String) (o : RoutingOracles) : List Json →
    Except Unit (List ℚ)
  | [] => .ok []
  | l :: rest => do
    let pts ← parseLine l
    if pts.isEmpty then segConfsLines token o rest
    else do
      let cs ← segConfsLine token o pts
      let ts ← segConfsLines token o rest
      .ok (cs ++ ts)

/-- All per-segment confidences produced when routing `g`. -/
def segConfs (token : String) (o : RoutingOracles) (g : Json) :
    Except Unit (List ℚ) :=
  match (g.key "coordinates").asArr with
  | none => .error ()
  | some ls => segConfsLines token o ls

/-- Squared Euclidean distance from `p` to the segment `a`–`b` (the `geo`
crate's point-to-`Line` distance, squared).  The simplifier compares
squared distances against the squared tolerance, which is
order-equivalent to the source's comparison of distances against the
tolerance for a nonnegative tolerance. -/
def distToSegSq (p a b : Pt) : ℚ :=
  let dx := b.1 - a.1
  let dy := b.2 - a.2
  let len2 := dx * dx + dy * dy
  if len2 = 0 then (p.1 - a.1) ^ 2 + (p.2 - a.2) ^ 2
  else
    let t := ((p.1 - a.1) * dx + (p.2 - a.2) * dy) / len2
    let t' := min 1 (max 0 t)
    (p.1 - (a.1 + t' * dx)) ^ 2 + (p.2 - (a.2 + t' * dy)) ^ 2

/-- The maximum-distance scan of the Douglas–Peucker step over the interior
points (`for (i, point) in points.iter().enumerate().take(last).skip(1)`),
carried out on squared distances: returns (index of the farthest point,
its squared distance), starting from `(0, 0)` like the source's
`index = 0; dmax = 0.0`, updating on strict increase. -/
def rdpScan (a b : Pt) : List Pt → Nat → Nat × ℚ → Nat × ℚ
  | [], _, acc => acc
  | p :: rest, i, acc =>
    rdpScan a b rest (i + 1)
      (if acc.2 < distToSegSq p a b then (i, distToSegSq p a b) else acc)

/-- The `geo` crate's Ramer–Douglas–Peucker recursion (on squared
distances, `e2` = tolerance²): fewer than 3 points are returned verbatim;
otherwise the farthest interior point splits the list when beyond
tolerance (`rdp(&points[..=index])` minus its last element, then
`rdp(&points[index..])`), else only the endpoints remain.  The dead
`else [a, b]` guard branch makes the recursion well-founded in Lean; the
source recursion reaches it for no nonnegative tolerance (the scan's
maximum exceeds a nonnegative `e2` only at an interior index). -/
def rdp (e2 : ℚ) (pts : List Pt) : List Pt :=
  if pts.length < 3 then pts
  else
    match rdpScan (pts.getD 0 (0, 0)) (pts.getD (pts.length - 1) (0, 0))
        ((pts.drop 1).take (pts.length - 2)) 1 (0, 0) with
    | (idx, dmax) =>
      if e2 < dmax then
        if h : 0 < idx ∧ idx < pts.length - 1 then
          (rdp e2 (pts.take (idx + 1))).dropLast ++ rdp e2 (pts.drop idx)
        else [pts.getD 0 (0, 0), pts.getD (pts.length - 1) (0, 0)]
      else [pts.getD 0 (0, 0), pts.getD (pts.length - 1) (0, 0)]
termination_by pts.length
decreasing_by
  · simp only [List.length_take]
    omega
  · simp only [List.length_drop]
    omega

/-- Embedding of `simplify_geometry`: parse the MultiLineString, drop
lines with fewer than 2 points (`continue`), simplify each remaining line
with Douglas–Peucker, and rebuild the MultiLineString. -/
def simplify_geometry (g : Json) (e2 : ℚ) : Except Unit Json :=
  match (g.key "coordinates").asArr with
  | none => .error ()
  | some ls => do
    let lines ← lsParse ls
    .ok (buildMulti ((lines.filter (fun l => 2 ≤ l.length)).map (rdp e2)))
where
  lsParse : List Json → Except Unit (List (List Pt))
    | [] => .ok []
    | l :: rest => do
      let h ← parseLine l
      let t ← lsParse rest
      .ok (h :: t)

/-- The simplification tolerance 0.0001° of `process_geometry`, squared. -/
def simplifyEps2 : ℚ := 1 / 100000000

/-- Embedding of `process_geometry` (route_handlers.rs): hybrid routing
then Douglas–Peucker simplification, each failure surfaced as 500. -/
def process_geometry (token : String) (o : RoutingOracles) (g : Json) :
    Except HErr Json :=
  match route_geometry token o g with
  | .error _ => .error .internal
  | .ok rg =>
    match simplify_geometry rg.1 simplifyEps2 with
    | .error _ => .error .internal
    | .ok s => .ok s

-- ============================================
-- `create_point_change` (src/routes/editing.rs)
-- ============================================

/-- Request body of `create_point_change`. -/
structure CreatePointChange where
  feature_index : Int
  point_index : Int
  original_position : Json
  new_position : Json

/-- Embedding of `create_point_change`: round trips 0 BEGIN, 1 session
lookup (`RowNotFound` → 403), 2 change insert (status takes the column
default "pending", the id a fresh surrogate key modelled as the row
count), 3 COMMIT.  The captured e-mail comes from the session row. -/
def create_point_change (ctx : Ctx) (db : Db) (rid : Nat)
    (pc : CreatePointChange) : Except HErr ChangeRow × Db :=
  if ¬ ctx.infra 0 then (.error .internal, db) else
  if ¬ ctx.infra 1 then (.error .internal, db) else
  match db.findSession rid ctx.user_id with
  | none => (.error .forbidden, db)
  | some s =>
    if ¬ ctx.infra 2 then (.error .internal, db) else
    let row : ChangeRow := ⟨db.changes.length, rid, ctx.user_id, s.user_email,
      pc.feature_index, pc.point_index, pc.original_position, pc.new_position,
      "pending", none, none⟩
    if ¬ ctx.infra 3 then (.error .internal, db) else
    (.ok row, { db with changes := db.changes ++ [row] })

-- ============================================
-- `update_route_control_points` (src/routes/route_handlers.rs)
-- ============================================

/-- Request body of `update_route_control_points`. -/
structure UpdateRouteControlPoints where
  control_points : Json
  feature_index : Int
  point_index : Int

/-- The per-point normalization used three times by the handler: an object
with a `coordinates` field yields that value, else `{lng, lat}` yields
`[lng, lat]`, else the point is rejected. -/
def normalizePoint (p : Json) : Option Json :=
  match p.getKey "coordinates" with
  | some coords => some coords
  | none =>
    match p.getKey "lng", p.getKey "lat" with
    | some lng, some lat => some (.arr [lng, lat])
    | _, _ => none

/-- The `collect::<Result<Vec<_>, _>>()` over the submitted control
points; any unnormalizable point is a 400. -/
def parseControlPoints : List Json → Except HErr (List Json)
  | [] => .ok []
  | p :: rest =>
    match normalizePoint p with
    | none => .error .badRequest
    | some c => do
      let t ← parseControlPoints rest
      .ok (c :: t)

/-- `control_points.as_array().and_then(|arr| arr.get(point_index as
usize)).and_then(<normalization>)`. -/
def positionAt (cp : Json) (pi : Nat) : Option Json :=
  ((cp.asArr.bind (fun arr => arr.get? pi)).bind normalizePoint)

/-- The `json!({"type": "MultiLineString", "coordinates": [coordinates]})`
wrapper around the normalized control points. -/
def controlPointsGeometry (coords : List Json) : Json :=
  .obj [("type", .str "MultiLineString"), ("coordinates", .arr [.arr coords])]

/-- Embedding of `update_route_control_points`.  Geometry is processed
BEFORE the transaction opens.  Round trips: 0 BEGIN, 1 route fetch
(`RowNotFound` → 404), then owner branch 2 control-point update / 3
version insert (RLS owner, NULL `created_by`) / 4 COMMIT, or non-owner
branch 5 point-change insert (token e-mail bound into the NOT NULL
`user_email` column — a missing claim is a database error) / 6 COMMIT /
7 post-commit latest-version fetch on the pool (whose failure returns an
error although the insert has already committed).  The response triple is
(route row as fetched, geometry, control points). -/
def update_route_control_points (ctx : Ctx) (token : String)
    (o : RoutingOracles) (db : Db) (rid : Nat)
    (payload : UpdateRouteControlPoints) :
    Except HErr (RouteRow × Json × Option Json) × Db :=
  match payload.control_points.asArr with
  | none => (.error .badRequest, db)
  | some ps =>
    match parseControlPoints ps with
    | .error e => (.error e, db)
    | .ok coords =>
      match process_geometry token o (controlPointsGeometry coords) with
      | .error e => (.error e, db)
      | .ok processed =>
        if ¬ ctx.infra 0 then (.error .internal, db) else
        if ¬ ctx.infra 1 then (.error .internal, db) else
        match db.findRoute rid with
        | none => (.error .notFound, db)
        | some rt =>
          if ctx.user_id = rt.owner_id then
            if ¬ ctx.infra 2 then (.error .internal, db) else
            let db1 : Db := { db with
              routes := db.routes.map (setCp rid ctx.user_id payload.control_points) }
            if ¬ ctx.infra 3 then (.error .internal, db) else
            if ¬ db1.ownsRoute ctx.user_id rid then (.error .forbidden, db) else
            let db2 : Db := { db1 with
              versions := db1.versions ++ [⟨rid, processed, ctx.now, none⟩] }
            if ¬ ctx.infra 4 then (.error .internal, db) else
            (.ok (rt, processed, some payload.control_points), db2)
          else
            match positionAt rt.control_points (usizeCast payload.point_index) with
            | none => (.error .badRequest, db)
            | some originalPos =>
              match positionAt payload.control_points
                  (usizeCast payload.point_index) with
              | none => (.error .badRequest, db)
              | some newPos =>
                if ¬ ctx.infra 5 then (.error .internal, db) else
                match ctx.token_email with
                | none => (.error .internal, db)
                | some em =>
                  let row : ChangeRow := ⟨db.changes.length, rid, ctx.user_id, em,
                    payload.feature_index, payload.point_index, originalPos, newPos,
                    "pending", none, none⟩
                  let db1 : Db := { db with changes := db.changes ++ [row] }
                  if ¬ ctx.infra 6 then (.error .internal, db) else
                  if ¬ ctx.infra 7 then (.error .internal, db1) else
                  match db1.latestVersion rid with
                  | none => (.error .notFound, db1)
                  | some ver => (.ok (rt, ver.geometry, some rt.control_points), db1)

/-- Routing oracles for concrete runs: nothing is near a curated track,
snapping finds no row, the road service is unreachable (never consulted
when the token is empty). -/
def exOracles : RoutingOracles :=
  ⟨fun _ => .ok false, fun _ _ => .ok none, fun _ _ => .sendErr⟩

/-- A non-owner (user 20) with an e-mail claim, acting at time 9 with no
infrastructure failures. -/
def exCtxNonOwner : Ctx := ⟨20, some "user@example.com", 9, fun _ => true⟩

/-- Store with route 1 (owner 10), its single version, NO editing
sessions and no point changes. -/
def exDbNoSession : Db := ⟨[exRoute], [exVersion], [], []⟩

/-- A single-point control-point submission targeting index 0. -/
def exPayload5 : UpdateRouteControlPoints :=
  ⟨.arr [.obj [("lng", .num 5), ("lat", .num 5)]], 0, 0⟩

/-- A two-waypoint MultiLineString. -/
def pairGeom (a b : Pt) : Json :=
  .obj [("type", .str "MultiLineString"),
        ("coordinates", .arr [.arr [.arr [.num a.1, .num a.2],
                                    .arr [.num b.1, .num b.2]]])]

/-- Oracles whose road service answers with a non-success HTTP status. -/
def exOraclesHttp : RoutingOracles :=
  ⟨fun _ => .ok false, fun _ _ => .ok none, fun _ _ => .httpErr⟩

/-- Oracles whose spatial-index proximity query fails. -/
def exOraclesNearFail : RoutingOracles :=
  ⟨fun _ => .error (), fun _ _ => .ok none, fun _ _ => .sendErr⟩

/-- A MultiLineString with a single one-point line (zero segments). -/
def exSinglePointGeom : Json :=
  .obj [("type", .str "MultiLineString"),
        ("coordinates", .arr [.arr [.arr [.num 3, .num 4]]])]

/-- A MultiLineString with one two-point line and one one-point line. -/
def exSimplifyGeom : Json :=
  .obj [("type", .str "MultiLineString"),
        ("coordinates",
         .arr [.arr [.arr [.num 0, .num 1], .arr [.num 2, .num 3]],
               .arr [.arr [.num 4, .num 5]]])]

/-- C10: an authenticated heartbeat on a route where the caller holds no
editing session succeeds (HTTP 200) and leaves the store unchanged — a
missing session is a silent no-op, never NotFound/Forbidden. -/
theorem heartbeat_missing_session_is_ok_noop (ctx : Ctx) (db : Db) (rid : Nat)
    (hinfra : ∀ n, ctx.infra n = true)
    (hno : ∀ s ∈ db.sessions, ¬ (s.route_id = rid ∧ s.user_id = ctx.user_id)) :
    heartbeat_editing_session ctx db rid = (.ok (), db) := by
  unfold heartbeat_editing_session
  simp only [hinfra, not_true, if_false]
  have hmap : db.sessions.map (fun s =>
      if s.route_id = rid ∧ s.user_id = ctx.user_id then
        { s with last_heartbeat := ctx.now }
      else s) = db.sessions := by
    conv_rhs => rw [← List.map_id db.sessions]
    refine List.map_congr_left ?_
    intro s hs
    simp [hno s hs]
  simp [hmap]

/-- Witness for C10 at a concrete state: one unrelated session row. -/
theorem heartbeat_missing_session_is_ok_noop_witness :
    heartbeat_editing_session
      ⟨7, none, 5, fun _ => true⟩
      ⟨[], [], [], [⟨3, 8, "a@b", 0, 0⟩]⟩ 2 =
    (.ok (), ⟨[], [], [], [⟨3, 8, "a@b", 0, 0⟩]⟩) := by
  refine heartbeat_missing_session_is_ok_noop _ _ _ (fun n => rfl) ?_
  intro s hs
  simp only [List.mem_singleton] at hs
  subst hs
  simp

/-- C1: contrary to the spec's terminal-state rule, resolving a change whose
status is already "accepted" does NOT fail: the handler succeeds, re-applies
the geometry edit (a second RouteVersion with the same overwrite is
appended) and overwrites `resolved_at`/`resolved_by` again.  The source has
no `status = 'pending'` guard. -/
theorem resolve_already_accepted_reapplies :
    (update_point_change_status exCtxOwner exDbResolved 5 "accepted").1 =
      .ok { exResolvedChange with resolved_at := some 9, resolved_by := some 10 } ∧
    ((update_point_change_status exCtxOwner exDbResolved 5 "accepted").2).versions =
      [exVersion, ⟨1, exGeom2, 9, some 10⟩] := by
  constructor <;> rfl

/-- C7: the handler never validates the requested status string: resolving
with status "banana" succeeds and stores "banana" as the change's status
(no 4xx, and a write outside {accepted, rejected} happens). -/
theorem resolve_invalid_status_is_stored :
    (update_point_change_status exCtxOwner exDbPending 6 "banana").1 =
      .ok { exPendingChange with
        status := "banana", resolved_at := some 9, resolved_by := some 10 } ∧
    ((update_point_change_status exCtxOwner exDbPending 6 "banana").2).changes =
      [{ exPendingChange with
         status := "banana", resolved_at := some 9, resolved_by := some 10 }] ∧
    ((update_point_change_status exCtxOwner exDbPending 6 "banana").2).versions =
      [exVersion] := by
  refine ⟨rfl, rfl, rfl⟩

/-- C6: accepting a change whose locator is out of bounds in the
then-current latest version's geometry fails with 400 (a client/structural
error, not a silent skip), appends no version and leaves the store — hence
the still-pending change — untouched (the transaction never commits). -/
theorem accept_out_of_bounds_fails (ctx : Ctx) (db : Db) (cid : Nat)
    (ch : ChangeRow) (ver : VersionRow)
    (hinfra : ∀ n, ctx.infra n = true)
    (hch : db.findChange cid = some ch)
    (_hpend : ch.status = "pending")
    (hown : db.ownsRoute ctx.user_id ch.route_id = true)
    (hver : db.latestVersion ch.route_id = some ver)
    (hoob : applyPointChange ver.geometry (usizeCast ch.feature_index)
      (usizeCast ch.point_index) ch.new_position = none) :
    update_point_change_status ctx db cid "accepted" = (.error .badRequest, db) := by
  unfold update_point_change_status
  simp only [hinfra, not_true, if_false, hch, hver, hoob, hown, ite_false, ite_true]
  simp [hown]

/-- Witness for C6 at the concrete out-of-bounds store. -/
theorem accept_out_of_bounds_fails_witness :
    update_point_change_status exCtxOwner exDbOob 8 "accepted" =
      (.error .badRequest, exDbOob) :=
  accept_out_of_bounds_fails exCtxOwner exDbOob 8 exOobChange exVersion
    (fun _ => rfl) rfl rfl rfl rfl rfl

theorem touchRoute_id (rid uid now : Nat) (r : RouteRow) :
    (touchRoute rid uid now r).id = r.id := by
  unfold touchRoute; split <;> rfl

theorem touchRoute_owner (rid uid now : Nat) (r : RouteRow) :
    (touchRoute rid uid now r).owner_id = r.owner_id := by
  unfold touchRoute; split <;> rfl

theorem touchRoute_cp (rid uid now : Nat) (r : RouteRow) :
    (touchRoute rid uid now r).control_points = r.control_points := by
  unfold touchRoute; split <;> rfl

theorem setCp_id (rid uid : Nat) (cp : Json) (r : RouteRow) :
    (setCp rid uid cp r).id = r.id := by
  unfold setCp; split <;> rfl

theorem setCp_owner (rid uid : Nat) (cp : Json) (r : RouteRow) :
    (setCp rid uid cp r).owner_id = r.owner_id := by
  unfold setCp; split <;> rfl

/-- Composing the find-by-id predicate with an id-preserving row function
leaves it unchanged. -/
theorem comp_decide_id (f : RouteRow → RouteRow) (rid : Nat)
    (hid : ∀ r, (f r).id = r.id) :
    ((fun r => decide (r.id = rid)) ∘ f) = (fun r => decide (r.id = rid)) := by
  funext r
  simp [Function.comp, hid r]

/-- `find?` by id commutes with mapping an id-preserving row function. -/
theorem find?_map_id_pres (f : RouteRow → RouteRow)
    (hid : ∀ r, (f r).id = r.id) (rs : List RouteRow) (rid : Nat) :
    (rs.map f).find? (fun r => r.id = rid) = (rs.find? (fun r => r.id = rid)).map f := by
  rw [List.find?_map]
  have he : ((fun r => decide (r.id = rid)) ∘ f) = (fun r => decide (r.id = rid)) := by
    funext r
    simp [Function.comp, hid r]
  rw [he]

/-- A successful `applyPointChange` writes `newPos` at exactly the
addressed coordinate and leaves every other coordinate address unchanged. -/
theorem applyPointChange_spec (g g' : Json) (fi pi : Nat) (v : Json)
    (h : applyPointChange g fi pi v = some g') :
    getCoord g' fi pi = some v ∧
    ∀ fi' pi', ¬ (fi' = fi ∧ pi' = pi) →
      getCoord g' fi' pi' = getCoord g fi' pi' := by
  unfold applyPointChange at h
  split at h
  · exact absurd h (by simp)
  next line hline =>
  split at h
  · exact absurd h (by simp)
  next x hpt =>
  simp only [Option.some.injEq] at h
  subst h
  -- `g` must be an object whose "coordinates" field is an array of arrays
  cases g with
  | obj fs =>
    cases hkv : fs.find? (fun p => p.1 = "coordinates") with
    | none => simp [Json.key, hkv, Json.getIdx] at hline
    | some q =>
    have hq1 : q.1 = "coordinates" := by
      have := List.find?_some hkv
      simpa using this
    have hkey : (Json.obj fs).key "coordinates" = q.2 := by
      simp [Json.key, hkv]
    have hkey' : ∀ w : Json,
        ((Json.obj fs).setKey "coordinates" w).key "coordinates" = w := by
      intro w
      simp only [Json.setKey, Json.key]
      rw [List.find?_map]
      have he : ((fun p => decide (p.1 = "coordinates")) ∘
          (fun p => if p.1 = "coordinates" then (p.1, w) else p)) =
          (fun p => decide (p.1 = "coordinates")) := by
        funext p
        by_cases hp : p.1 = "coordinates" <;> simp [Function.comp, hp]
      rw [he, hkv]
      simp [hq1]
    rw [hkey] at hline
    cases hq2 : q.2 with
    | arr lines =>
      rw [hq2] at hline
      simp only [Json.getIdx] at hline
      cases line with
      | arr coords =>
        simp only [Json.getIdx] at hpt
        have hfi : fi < lines.length := by
          by_contra hge
          rw [List.get?_eq_none.mpr (Nat.le_of_not_lt hge)] at hline
          exact absurd hline (by simp)
        have hpilt : pi < coords.length := by
          by_contra hge
          rw [List.get?_eq_none.mpr (Nat.le_of_not_lt hge)] at hpt
          exact absurd hpt (by simp)
        constructor
        · rw [getCoord, hkey', hkey, hq2]
          simp only [Json.setIdx, Json.getIdx]
          rw [List.get?_set_eq_of_lt _ hfi]
          simp only [Option.some_bind, Json.getIdx]
          rw [List.get?_set_eq_of_lt _ hpilt]
        · intro fi' pi' hne
          rw [getCoord, getCoord, hkey', hkey, hq2]
          simp only [Json.setIdx, Json.getIdx]
          by_cases hfi' : fi' = fi
          · subst hfi'
            have hpi' : pi' ≠ pi := fun hp => hne ⟨rfl, hp⟩
            rw [List.get?_set_eq_of_lt _ hfi, hline]
            simp only [Option.some_bind, Json.getIdx]
            rw [List.get?_set_ne _ _ (fun hp => hpi' hp.symm)]
          · rw [List.get?_set_ne _ _ (fun hp => hfi' hp.symm)]
      | null => simp [Json.getIdx] at hpt
      | bool b => simp [Json.getIdx] at hpt
      | num n => simp [Json.getIdx] at hpt
      | str s => simp [Json.getIdx] at hpt
      | obj o => simp [Json.getIdx] at hpt
    | null => rw [hq2] at hline; simp [Json.getIdx] at hline
    | bool b => rw [hq2] at hline; simp [Json.getIdx] at hline
    | num n => rw [hq2] at hline; simp [Json.getIdx] at hline
    | str s => rw [hq2] at hline; simp [Json.getIdx] at hline
    | obj o => rw [hq2] at hline; simp [Json.getIdx] at hline
  | null => simp [Json.key, Json.getIdx] at hline
  | bool b => simp [Json.key, Json.getIdx] at hline
  | num n => simp [Json.key, Json.getIdx] at hline
  | str s => simp [Json.key, Json.getIdx] at hline
  | arr xs => simp [Json.key, Json.getIdx] at hline

/-- C2 (as amended): resolving a pending, in-bounds point change with
decision "accepted" is all-or-nothing: for every infrastructure schedule
the operation either fails leaving the store exactly as before
(rollback), or succeeds having (a) appended exactly one version whose
geometry is the previous latest geometry with
`coordinates[feature_index][point_index]` overwritten by `new_position`
(and nothing else changed, cf. the last two conjuncts), (b) — PROVIDED
the route's `control_points` is an array in which `point_index` is in
range and `new_position` is a two-element array — rewritten
`control_points[point_index]` to the same position in `{lng, lat}` form,
and (c) set the change's status to "accepted" with non-null
`resolved_at`/`resolved_by`.  Without (b)'s side conditions the resolve
still succeeds but silently skips the control-point rewrite, as the
counterexample shows. -/
theorem accept_pending_point_change_atomic
    (ctx : Ctx) (db : Db) (cid : Nat) (ch : ChangeRow) (ver : VersionRow)
    (rt : RouteRow) (pts : List Json) (p0 a b newGeom : Json)
    (hch : db.findChange cid = some ch)
    (_hpend : ch.status = "pending")
    (hrt : db.findRoute ch.route_id = some rt)
    (hown : rt.owner_id = ctx.user_id)
    (hver : db.latestVersion ch.route_id = some ver)
    (happly : applyPointChange ver.geometry (usizeCast ch.feature_index)
      (usizeCast ch.point_index) ch.new_position = some newGeom)
    (hcp : rt.control_points = .arr pts)
    (hpi : pts.get? (usizeCast ch.point_index) = some p0)
    (hnp : ch.new_position = .arr [a, b]) :
    (∃ e, update_point_change_status ctx db cid "accepted" = (.error e, db)) ∨
    (update_point_change_status ctx db cid "accepted" =
      (.ok { ch with
               status := "accepted", resolved_at := some ctx.now,
               resolved_by := some ctx.user_id },
       { db with
         versions := db.versions ++ [⟨ch.route_id, newGeom, ctx.now, some ctx.user_id⟩],
         routes := db.routes.map (fun r =>
           if r.id = ch.route_id ∧ r.owner_id = ctx.user_id then
             { r with
               updated_at := ctx.now,
               control_points := Json.arr (pts.set (usizeCast ch.point_index)
                 (Json.obj [("lng", a), ("lat", b)])) }
           else r),
         changes := db.changes.map (fun c =>
           if c.id = cid then
             { ch with
               status := "accepted", resolved_at := some ctx.now,
               resolved_by := some ctx.user_id }
           else c) }) ∧
     getCoord newGeom (usizeCast ch.feature_index) (usizeCast ch.point_index) =
       some ch.new_position ∧
     (∀ fi' pi', ¬ (fi' = usizeCast ch.feature_index ∧ pi' = usizeCast ch.point_index) →
       getCoord newGeom fi' pi' = getCoord ver.geometry fi' pi')) := by
  obtain ⟨hread, hframe⟩ := applyPointChange_spec _ _ _ _ _ happly
  have hrt' : db.routes.find? (fun r => r.id = ch.route_id) = some rt := hrt
  have hrtid : rt.id = ch.route_id := by
    have := List.find?_some hrt'
    simpa using this
  have hownB : db.ownsRoute ctx.user_id ch.route_id = true := by
    simp [Db.ownsRoute, Db.findRoute, hrt', hown]
  have htouchrt : touchRoute ch.route_id ctx.user_id ctx.now rt =
      { rt with updated_at := ctx.now } := by
    simp [touchRoute, hrtid, hown]
  have hpi' : pts[usizeCast ch.point_index]? = some p0 := by
    simpa using hpi
  have hacc : acceptControlPoints rt.control_points (usizeCast ch.point_index)
      ch.new_position = some (Json.arr (pts.set (usizeCast ch.point_index)
        (Json.obj [("lng", a), ("lat", b)]))) := by
    simp [acceptControlPoints, hcp, hpi', hnp]
  have heqT : ((fun r => decide (r.id = ch.route_id)) ∘
      touchRoute ch.route_id ctx.user_id ctx.now) =
      (fun r => decide (r.id = ch.route_id)) :=
    comp_decide_id _ _ (touchRoute_id ch.route_id ctx.user_id ctx.now)
  have heqS : ((fun r => decide (r.id = ch.route_id)) ∘
      setCp ch.route_id ctx.user_id (Json.arr (pts.set (usizeCast ch.point_index)
        (Json.obj [("lng", a), ("lat", b)])))) =
      (fun r => decide (r.id = ch.route_id)) :=
    comp_decide_id _ _ (setCp_id ch.route_id ctx.user_id _)
  have hidST : ∀ r : RouteRow, ((setCp ch.route_id ctx.user_id
      (Json.arr (pts.set (usizeCast ch.point_index) (Json.obj [("lng", a), ("lat", b)]))) ∘
      touchRoute ch.route_id ctx.user_id ctx.now) r).id = r.id := by
    intro r
    simp [Function.comp, setCp_id, touchRoute_id]
  have heqST := comp_decide_id _ ch.route_id hidST
  have hidTarget : ∀ r : RouteRow, ((fun r =>
      if r.id = ch.route_id ∧ r.owner_id = ctx.user_id then
        { r with
          updated_at := ctx.now,
          control_points := Json.arr (pts.set (usizeCast ch.point_index)
            (Json.obj [("lng", a), ("lat", b)])) }
      else r) r).id = r.id := by
    intro r
    by_cases hc : r.id = ch.route_id ∧ r.owner_id = ctx.user_id <;> simp [hc]
  have heqTarget := comp_decide_id _ ch.route_id hidTarget
  have hroutes : db.routes.map
      ((setCp ch.route_id ctx.user_id (Json.arr (pts.set (usizeCast ch.point_index)
        (Json.obj [("lng", a), ("lat", b)])))) ∘
       (touchRoute ch.route_id ctx.user_id ctx.now)) =
      db.routes.map (fun r =>
        if r.id = ch.route_id ∧ r.owner_id = ctx.user_id then
          { r with
            updated_at := ctx.now,
            control_points := Json.arr (pts.set (usizeCast ch.point_index)
              (Json.obj [("lng", a), ("lat", b)])) }
        else r) := by
    refine List.map_congr_left ?_
    intro r _
    by_cases hc : r.id = ch.route_id ∧ r.owner_id = ctx.user_id
    · simp [Function.comp, touchRoute, setCp, hc]
    · simp [Function.comp, touchRoute, setCp, hc]
  by_cases h0 : ctx.infra 0
  case neg => exact Or.inl ⟨.internal, by simp [update_point_change_status, h0]⟩
  by_cases h1 : ctx.infra 1
  case neg => exact Or.inl ⟨.internal, by simp [update_point_change_status, h0, h1]⟩
  by_cases h2 : ctx.infra 2
  case neg =>
    exact Or.inl ⟨.internal, by
      simp [update_point_change_status, h0, h1, h2, hch, hownB]⟩
  by_cases h3 : ctx.infra 3
  case neg =>
    exact Or.inl ⟨.internal, by
      simp [update_point_change_status, h0, h1, h2, h3, hch, hownB, hver, happly]⟩
  by_cases h4 : ctx.infra 4
  case neg =>
    exact Or.inl ⟨.internal, by
      simp [update_point_change_status, h0, h1, h2, h3, h4, hch, hownB, hver, happly]⟩
  by_cases h5 : ctx.infra 5
  case neg =>
    exact Or.inl ⟨.internal, by
      simp [update_point_change_status, h0, h1, h2, h3, h4, h5, hch, hownB, hver, happly]⟩
  by_cases h6 : ctx.infra 6
  case neg =>
    exact Or.inl ⟨.internal, by
      simp [update_point_change_status, h0, h1, h2, h3, h4, h5, h6, hch, hownB, hver,
        happly, Db.findRoute, List.find?_map, heqT, heqS, heqST, heqTarget, hrtid, hrt', htouchrt,
        touchRoute_cp, hacc]⟩
  by_cases h7 : ctx.infra 7
  case neg =>
    exact Or.inl ⟨.internal, by
      simp [update_point_change_status, h0, h1, h2, h3, h4, h5, h6, h7, hch, hownB, hver,
        happly, Db.findRoute, List.find?_map, heqT, heqS, heqST, heqTarget, hrtid, hrt', htouchrt,
        touchRoute_cp, hacc]⟩
  by_cases h8 : ctx.infra 8
  case neg =>
    exact Or.inl ⟨.internal, by
      simp [update_point_change_status, h0, h1, h2, h3, h4, h5, h6, h7, h8, hch, hownB,
        hver, happly, Db.findRoute, List.find?_map, heqT, heqS, heqST, heqTarget, hrtid,
        hrt', htouchrt, touchRoute_cp, hacc, Db.ownsRoute, setCp_owner,
        touchRoute_owner, hown]⟩
  refine Or.inr ⟨?_, hread, hframe⟩
  simp [update_point_change_status, h0, h1, h2, h3, h4, h5, h6, h7, h8, hch, hownB,
    hver, happly, Db.findRoute, List.find?_map, heqT, heqS, heqST, heqTarget, hrtid,
    hrt', htouchrt, touchRoute_cp, hacc, Db.ownsRoute, setCp_owner, touchRoute_owner,
    hown, List.map_map, hroutes]

/-- Witness for C2 at the concrete pending store (all round trips succeed,
so the success disjunct is realized). -/
theorem accept_pending_point_change_atomic_witness :
    (∃ e, update_point_change_status exCtxOwner exDbPending 6 "accepted" =
      (.error e, exDbPending)) ∨
    (update_point_change_status exCtxOwner exDbPending 6 "accepted" =
      (.ok exAcceptedChange,
       ⟨[{ exRoute with
           updated_at := 9,
           control_points := .arr [.obj [("lng", .num 0), ("lat", .num 0)],
                                   .obj [("lng", .num 2), ("lat", .num 2)]] }],
        [exVersion, ⟨1, exGeom2, 9, some 10⟩],
        [exAcceptedChange], []⟩) ∧
     getCoord exGeom2 0 1 = some (.arr [.num 2, .num 2]) ∧
     (∀ fi' pi', ¬ (fi' = 0 ∧ pi' = 1) →
       getCoord exGeom2 fi' pi' = getCoord exGeom fi' pi')) :=
  accept_pending_point_change_atomic exCtxOwner exDbPending 6 exPendingChange
    exVersion exRoute
    [.obj [("lng", .num 0), ("lat", .num 0)], .obj [("lng", .num 1), ("lat", .num 1)]]
    (.obj [("lng", .num 1), ("lat", .num 1)]) (.num 2) (.num 2) exGeom2
    rfl rfl rfl rfl rfl rfl rfl rfl rfl

/-- C2 counterexample: a pending change whose locator is in bounds in the
then-current latest geometry but out of range of the (shorter)
`control_points` array.  The resolve nevertheless SUCCEEDS — status
becomes "accepted" with `resolved_at`/`resolved_by` set and a second
version is appended — yet the route's control points are left exactly as
before: no `{lng, lat}` rewrite at `point_index` happens, refuting the
claim's conjunct (b). -/
theorem accept_in_bounds_skips_control_points :
    (update_point_change_status exCtxOwner exDbCpSkip 7 "accepted").1 =
      .ok { exCpSkipChange with
            status := "accepted", resolved_at := some 9, resolved_by := some 10 } ∧
    ((update_point_change_status exCtxOwner exDbCpSkip 7 "accepted").2).versions.length = 2 ∧
    ((update_point_change_status exCtxOwner exDbCpSkip 7 "accepted").2).routes.map
        (fun r => r.control_points) =
      [.arr [.obj [("lng", .num 0), ("lat", .num 0)]]] := by
  refine ⟨rfl, rfl, rfl⟩

/-- Shared characterization of the non-owner branch of
`update_route_control_points` on the success path: the only store effect
is one appended pending point change (note: no editing-session condition
appears anywhere, and the e-mail comes from the token claim). -/
theorem update_rcp_nonowner (ctx : Ctx) (token : String) (o : RoutingOracles)
    (db : Db) (rid : Nat) (payload : UpdateRouteControlPoints)
    (ps coords : List Json) (pg : Json) (rt : RouteRow)
    (origPos newPos : Json) (em : String) (ver : VersionRow)
    (hinfra : ∀ n, ctx.infra n = true)
    (hps : payload.control_points.asArr = some ps)
    (hparse : parseControlPoints ps = .ok coords)
    (hproc : process_geometry token o (controlPointsGeometry coords) = .ok pg)
    (hrt : db.findRoute rid = some rt)
    (hnotowner : ctx.user_id ≠ rt.owner_id)
    (horig : positionAt rt.control_points (usizeCast payload.point_index) = some origPos)
    (hnew : positionAt payload.control_points (usizeCast payload.point_index) = some newPos)
    (hem : ctx.token_email = some em)
    (hver : db.latestVersion rid = some ver) :
    update_route_control_points ctx token o db rid payload =
      (.ok (rt, ver.geometry, some rt.control_points),
       { db with changes := db.changes ++
          [⟨db.changes.length, rid, ctx.user_id, em, payload.feature_index,
            payload.point_index, origPos, newPos, "pending", none, none⟩] }) := by
  have hver' : (db.versions.filter (fun v => v.route_id = rid)).getLast? =
      some ver := hver
  unfold update_route_control_points
  simp [hps, hparse, hproc, hinfra, hrt, hnotowner, horig, hnew, hem,
    Db.latestVersion, hver']

/-- C5: a control-point update by an authenticated non-owner on an
existing route mutates no geometry: the committed store differs from the
initial one only by exactly one appended PointChange with status
"pending" whose original_position comes from the existing control points
at `point_index` and whose new_position comes from the submitted control
points at the same index; the response carries the unchanged route row,
its unchanged current latest-version geometry, and the existing control
points. -/
theorem nonowner_control_point_update_is_proposal (ctx : Ctx) (token : String)
    (o : RoutingOracles) (db : Db) (rid : Nat)
    (payload : UpdateRouteControlPoints) (ps coords : List Json) (pg : Json)
    (rt : RouteRow) (origPos newPos : Json) (em : String) (ver : VersionRow)
    (hinfra : ∀ n, ctx.infra n = true)
    (hps : payload.control_points.asArr = some ps)
    (hparse : parseControlPoints ps = .ok coords)
    (hproc : process_geometry token o (controlPointsGeometry coords) = .ok pg)
    (hrt : db.findRoute rid = some rt)
    (hnotowner : ctx.user_id ≠ rt.owner_id)
    (horig : positionAt rt.control_points (usizeCast payload.point_index) = some origPos)
    (hnew : positionAt payload.control_points (usizeCast payload.point_index) = some newPos)
    (hem : ctx.token_email = some em)
    (hver : db.latestVersion rid = some ver) :
    update_route_control_points ctx token o db rid payload =
      (.ok (rt, ver.geometry, some rt.control_points),
       { db with changes := db.changes ++
          [⟨db.changes.length, rid, ctx.user_id, em, payload.feature_index,
            payload.point_index, origPos, newPos, "pending", none, none⟩] }) :=
  update_rcp_nonowner ctx token o db rid payload ps coords pg rt origPos newPos
    em ver hinfra hps hparse hproc hrt hnotowner horig hnew hem hver

/-- Witness for C5 at the concrete non-owner store. -/
theorem nonowner_control_point_update_is_proposal_witness :
    update_route_control_points exCtxNonOwner "" exOracles exDbNoSession 1
      exPayload5 =
      (.ok (exRoute, exGeom, some exRoute.control_points),
       { exDbNoSession with changes :=
          [⟨0, 1, 20, "user@example.com", 0, 0, .arr [.num 0, .num 0],
            .arr [.num 5, .num 5], "pending", none, none⟩] }) :=
  nonowner_control_point_update_is_proposal exCtxNonOwner "" exOracles
    exDbNoSession 1 exPayload5
    [.obj [("lng", .num 5), ("lat", .num 5)]] [.arr [.num 5, .num 5]]
    (buildMulti []) exRoute (.arr [.num 0, .num 0]) (.arr [.num 5, .num 5])
    "user@example.com" exVersion
    (fun _ => rfl) rfl rfl rfl rfl (by decide) rfl rfl rfl rfl

/-- C4 counterexample: the non-owner control-point path inserts a
PointChange although the store holds NO editing session at all, taking
its e-mail from the token claim — so not every PointChange-inserting code
path requires an active session. -/
theorem point_change_inserted_without_session :
    exDbNoSession.sessions = [] ∧
    (update_route_control_points exCtxNonOwner "" exOracles exDbNoSession 1
      exPayload5).2.changes =
      [⟨0, 1, 20, "user@example.com", 0, 0, .arr [.num 0, .num 0],
        .arr [.num 5, .num 5], "pending", none, none⟩] := by
  refine ⟨rfl, ?_⟩
  rw [update_rcp_nonowner exCtxNonOwner "" exOracles exDbNoSession 1 exPayload5
    [.obj [("lng", .num 5), ("lat", .num 5)]] [.arr [.num 5, .num 5]]
    (buildMulti []) exRoute (.arr [.num 0, .num 0]) (.arr [.num 5, .num 5])
    "user@example.com" exVersion (fun _ => rfl) rfl rfl rfl rfl (by decide)
    rfl rfl rfl rfl]
  rfl

/-- C4 as amended: only the dedicated `create_point_change` endpoint
gates on an active (route, user) editing session — absent session it
fails 403 writing nothing, present session it inserts the change with the
session row's e-mail; the non-owner control-point update path inserts a
pending PointChange with the token claim's e-mail without consulting
sessions at all. -/
theorem point_change_session_gate (ctx : Ctx) (db : Db) (rid : Nat)
    (pc : CreatePointChange)
    (hinfra : ∀ n, ctx.infra n = true) :
    (db.findSession rid ctx.user_id = none →
      create_point_change ctx db rid pc = (.error .forbidden, db)) ∧
    (∀ s, db.findSession rid ctx.user_id = some s →
      create_point_change ctx db rid pc =
        (.ok ⟨db.changes.length, rid, ctx.user_id, s.user_email,
              pc.feature_index, pc.point_index, pc.original_position,
              pc.new_position, "pending", none, none⟩,
         { db with changes := db.changes ++
            [⟨db.changes.length, rid, ctx.user_id, s.user_email,
              pc.feature_index, pc.point_index, pc.original_position,
              pc.new_position, "pending", none, none⟩] })) ∧
    (∀ (token : String) (o : RoutingOracles)
       (payload : UpdateRouteControlPoints) (ps coords : List Json) (pg : Json)
       (rt : RouteRow) (origPos newPos : Json) (em : String) (ver : VersionRow),
      payload.control_points.asArr = some ps →
      parseControlPoints ps = .ok coords →
      process_geometry token o (controlPointsGeometry coords) = .ok pg →
      db.findRoute rid = some rt →
      ctx.user_id ≠ rt.owner_id →
      positionAt rt.control_points (usizeCast payload.point_index) = some origPos →
      positionAt payload.control_points (usizeCast payload.point_index) = some newPos →
      ctx.token_email = some em →
      db.latestVersion rid = some ver →
      (update_route_control_points ctx token o db rid payload).2.changes =
        db.changes ++ [⟨db.changes.length, rid, ctx.user_id, em,
          payload.feature_index, payload.point_index, origPos, newPos,
          "pending", none, none⟩]) := by
  refine ⟨?_, ?_, ?_⟩
  · intro hnone
    unfold create_point_change
    simp [hinfra, hnone]
  · intro s hs
    unfold create_point_change
    simp [hinfra, hs]
  · intro token o payload ps coords pg rt origPos newPos em ver
      hps hparse hproc hrt hnotowner horig hnew hem hver
    rw [update_rcp_nonowner ctx token o db rid payload ps coords pg rt origPos
      newPos em ver hinfra hps hparse hproc hrt hnotowner horig hnew hem hver]

/-- Witness for C4's amended statement: with the one-session store the
gated endpoint succeeds with the session e-mail, and with no session it
fails 403. -/
theorem point_change_session_gate_witness :
    create_point_change
      ⟨8, none, 5, fun _ => true⟩
      ⟨[], [], [], [⟨3, 8, "sess@example.com", 0, 0⟩]⟩ 3
      ⟨0, 1, .arr [.num 0, .num 0], .arr [.num 1, .num 1]⟩ =
      (.ok ⟨0, 3, 8, "sess@example.com", 0, 1, .arr [.num 0, .num 0],
            .arr [.num 1, .num 1], "pending", none, none⟩,
       ⟨[], [], [⟨0, 3, 8, "sess@example.com", 0, 1, .arr [.num 0, .num 0],
            .arr [.num 1, .num 1], "pending", none, none⟩],
        [⟨3, 8, "sess@example.com", 0, 0⟩]⟩) ∧
    create_point_change
      ⟨8, none, 5, fun _ => true⟩ ⟨[], [], [], []⟩ 3
      ⟨0, 1, .arr [.num 0, .num 0], .arr [.num 1, .num 1]⟩ =
      (.error .forbidden, ⟨[], [], [], []⟩) := by
  constructor
  · exact (point_change_session_gate ⟨8, none, 5, fun _ => true⟩
      ⟨[], [], [], [⟨3, 8, "sess@example.com", 0, 0⟩]⟩ 3
      ⟨0, 1, .arr [.num 0, .num 0], .arr [.num 1, .num 1]⟩
      (fun _ => rfl)).2.1 ⟨3, 8, "sess@example.com", 0, 0⟩ rfl
  · exact (point_change_session_gate ⟨8, none, 5, fun _ => true⟩
      ⟨[], [], [], []⟩ 3
      ⟨0, 1, .arr [.num 0, .num 0], .arr [.num 1, .num 1]⟩
      (fun _ => rfl)).1 rfl

-- ============================================
-- C3: road-service degradation vs. store failures
-- ============================================

/-- `bind` on a successful `Except` computation reduces to the
continuation. -/
theorem except_ok_bind {ε α β : Type} (x : α) (f : α → Except ε β) :
    (Except.ok x >>= f) = f x := rfl

/-- `bind` on a failed `Except` computation propagates the error. -/
theorem except_error_bind {ε α β : Type} (e : ε) (f : α → Except ε β) :
    ((Except.error e : Except ε α) >>= f) = .error e := rfl

/-- A failing proximity query for the left endpoint aborts the whole
per-line routing. -/
theorem routeLine_near_fail (token : String) (o : RoutingOracles) (p q : Pt)
    (rest : List Pt) (h : o.near p = .error ()) :
    routeLine token o (p :: q :: rest) = .error () := by
  have hseg : routeSegment token o p q = .error () := by
    unfold routeSegment
    rw [h]
    rfl
  unfold routeLine
  rw [hseg]
  rfl

/-- C3 counterexample: with a configured token, a transport-level failure
of the road-routing call (`send().await?`) — a road-routing-service
failure — aborts the whole `route_geometry` operation instead of
degrading to a straight segment. -/
theorem mapbox_transport_error_aborts :
    route_geometry "t" exOracles exGeom = .error () := rfl

/-- C3 as amended: per on-road waypoint pair, a missing token, a
non-success HTTP status, or an empty route list degrade to the straight
segment with confidence 0.5 and do not abort; but a transport failure or
an undeserializable body of the road-service call is propagated and
aborts, exactly like a spatial-index query failure. -/
theorem road_service_degradation (token : String) (o : RoutingOracles)
    (a b : Pt) :
    (token = "" → route_via_mapbox token o a b = .ok ([a, b], 1/2)) ∧
    (token ≠ "" → o.mapbox a b = .httpErr →
      route_via_mapbox token o a b = .ok ([a, b], 1/2)) ∧
    (token ≠ "" → o.mapbox a b = .ok [] →
      route_via_mapbox token o a b = .ok ([a, b], 1/2)) ∧
    (token ≠ "" → o.mapbox a b = .sendErr →
      route_via_mapbox token o a b = .error ()) ∧
    (token ≠ "" → o.mapbox a b = .badBody →
      route_via_mapbox token o a b = .error ()) ∧
    (o.near a = .error () →
      route_geometry token o (pairGeom a b) = .error ()) := by
  refine ⟨?_, ?_, ?_, ?_, ?_, ?_⟩
  · intro he
    simp [route_via_mapbox, he]
  · intro hne hm
    simp [route_via_mapbox, hne, hm]
  · intro hne hm
    simp [route_via_mapbox, hne, hm]
  · intro hne hm
    simp [route_via_mapbox, hne, hm]
  · intro hne hm
    simp [route_via_mapbox, hne, hm]
  · intro hnear
    have h1 : routeLine token o [(a.1, a.2), (b.1, b.2)] = .error () :=
      routeLine_near_fail token o (a.1, a.2) (b.1, b.2) [] hnear
    unfold route_geometry pairGeom
    simp [routeLines, parseLine, extractPts, extractPt, Json.key, Json.asArr,
      Json.asNum, except_ok_bind, except_error_bind, h1]

/-- Witness for C3's amended statement: an HTTP-status failure degrades
to the straight 0.5 segment, while a spatial-index failure aborts. -/
theorem road_service_degradation_witness :
    route_via_mapbox "t" exOraclesHttp (0, 0) (1, 1) =
      .ok ([(0, 0), (1, 1)], 1/2) ∧
    route_geometry "t" exOraclesNearFail (pairGeom (0, 0) (1, 1)) =
      .error () :=
  ⟨(road_service_degradation "t" exOraclesHttp (0, 0) (1, 1)).2.1
      (by decide) rfl,
   (road_service_degradation "t" exOraclesNearFail (0, 0) (1, 1)).2.2.2.2.2 rfl⟩

-- ============================================
-- C9: confidence is the mean of per-segment confidences
-- ============================================

/-- Every successfully routed segment's confidence is 0.9, 0.5, 0.3 or a
stored track confidence (1–5) divided by 5. -/
theorem routeSegment_conf (token : String) (o : RoutingOracles) (p q : Pt)
    (r : List Pt × ℚ)
    (hsnap : ∀ a b s t k, o.snap a b = .ok (some (s, t, k)) → 1 ≤ k ∧ k ≤ 5)
    (h : routeSegment token o p q = .ok r) :
    r.2 = 9/10 ∨ r.2 = 1/2 ∨ r.2 = 3/10 ∨
      ∃ k : ℤ, 1 ≤ k ∧ k ≤ 5 ∧ r.2 = (k : ℚ)/5 := by
  unfold routeSegment at h
  cases hnp : o.near p with
  | error e => rw [hnp, except_error_bind] at h; cases h
  | ok sn =>
  rw [hnp, except_ok_bind] at h
  cases hnq : o.near q with
  | error e => rw [hnq, except_error_bind] at h; cases h
  | ok en =>
  rw [hnq, except_ok_bind] at h
  by_cases hb : (sn && en) = true
  · rw [if_pos hb] at h
    unfold route_via_curated_tracks at h
    cases hs : o.snap p q with
    | error e => rw [hs, except_error_bind] at h; cases h
    | ok snapRes =>
      rw [hs, except_ok_bind] at h
      match snapRes, hs with
      | none, hs =>
        simp only [Except.ok.injEq] at h
        subst h
        exact Or.inr (Or.inr (Or.inl rfl))
      | some (s, t, k), hs =>
        simp only [Except.ok.injEq] at h
        subst h
        exact Or.inr (Or.inr (Or.inr ⟨k, (hsnap p q s t k hs).1,
          (hsnap p q s t k hs).2, rfl⟩))
  · rw [if_neg hb] at h
    unfold route_via_mapbox at h
    by_cases ht : token = ""
    · rw [if_pos ht] at h
      simp only [Except.ok.injEq] at h
      subst h
      exact Or.inr (Or.inl rfl)
    · rw [if_neg ht] at h
      cases hm : o.mapbox p q with
      | sendErr => rw [hm] at h; cases h
      | httpErr =>
        rw [hm] at h
        simp only [Except.ok.injEq] at h
        subst h
        exact Or.inr (Or.inl rfl)
      | badBody => rw [hm] at h; cases h
      | ok routes =>
        rw [hm] at h
        cases routes with
        | nil =>
          simp only [Except.ok.injEq] at h
          subst h
          exact Or.inr (Or.inl rfl)
        | cons rt rest =>
          simp only [Except.ok.injEq] at h
          subst h
          exact Or.inl rfl

/-- Per line, the summed confidence and segment count of `routeLine` are
exactly the sum and length of that line's per-segment confidence list. -/
theorem routeLine_confs (token : String) (o : RoutingOracles)
    (hsnap : ∀ a b s t k, o.snap a b = .ok (some (s, t, k)) → 1 ≤ k ∧ k ≤ 5) :
    ∀ (pts : List Pt) (r : List Pt × ℚ × Nat),
    routeLine token o pts = .ok r →
    ∃ cs, segConfsLine token o pts = .ok cs ∧ r.2.1 = cs.sum ∧
      r.2.2 = cs.length ∧
      ∀ c ∈ cs, c = 9/10 ∨ c = 1/2 ∨ c = 3/10 ∨
        ∃ k : ℤ, 1 ≤ k ∧ k ≤ 5 ∧ c = (k : ℚ)/5 := by
  intro pts
  induction pts with
  | nil =>
    intro r h
    cases h
    exact ⟨[], rfl, rfl, rfl, by simp⟩
  | cons p rest ih =>
    cases rest with
    | nil =>
      intro r h
      cases h
      exact ⟨[], rfl, rfl, rfl, by simp⟩
    | cons q rest' =>
      intro r h
      unfold routeLine at h
      cases hseg : routeSegment token o p q with
      | error e => rw [hseg, except_error_bind] at h; cases h
      | ok sc =>
      rw [hseg, except_ok_bind] at h
      cases hline : routeLine token o (q :: rest') with
      | error e => rw [hline, except_error_bind] at h; cases h
      | ok t =>
      rw [hline, except_ok_bind] at h
      cases h
      obtain ⟨cs, hcs, hsum, hlen, hmem⟩ := ih t hline
      refine ⟨sc.2 :: cs, ?_, ?_, ?_, ?_⟩
      · unfold segConfsLine
        rw [hseg, except_ok_bind, hcs, except_ok_bind]
      · simp [hsum]
      · simp [hlen]
      · intro c hc
        rcases List.mem_cons.mp hc with hc | hc
        · subst hc
          exact routeSegment_conf token o p q sc hsnap hseg
        · exact hmem c hc

/-- Across all lines, the accumulated confidence and segment count of
`routeLines` are the sum and length of the whole per-segment confidence
list. -/
theorem routeLines_confs (token : String) (o : RoutingOracles)
    (hsnap : ∀ a b s t k, o.snap a b = .ok (some (s, t, k)) → 1 ≤ k ∧ k ≤ 5) :
    ∀ (ls : List Json) (r : List (List Pt) × ℚ × Nat),
    routeLines token o ls = .ok r →
    ∃ cs, segConfsLines token o ls = .ok cs ∧ r.2.1 = cs.sum ∧
      r.2.2 = cs.length ∧
      ∀ c ∈ cs, c = 9/10 ∨ c = 1/2 ∨ c = 3/10 ∨
        ∃ k : ℤ, 1 ≤ k ∧ k ≤ 5 ∧ c = (k : ℚ)/5 := by
  intro ls
  induction ls with
  | nil =>
    intro r h
    cases h
    exact ⟨[], rfl, rfl, rfl, by simp⟩
  | cons l rest ih =>
    intro r h
    unfold routeLines at h
    cases hp : parseLine l with
    | error e => rw [hp, except_error_bind] at h; cases h
    | ok pts =>
    rw [hp, except_ok_bind] at h
    by_cases hemp : pts.isEmpty = true
    · rw [if_pos hemp] at h
      obtain ⟨cs, hcs, hsum, hlen, hmem⟩ := ih r h
      refine ⟨cs, ?_, hsum, hlen, hmem⟩
      unfold segConfsLines
      rw [hp, except_ok_bind, if_pos hemp, hcs]
    · rw [if_neg hemp] at h
      cases hline : routeLine token o pts with
      | error e => rw [hline, except_error_bind] at h; cases h
      | ok rr =>
      rw [hline, except_ok_bind] at h
      cases hrest : routeLines token o rest with
      | error e => rw [hrest, except_error_bind] at h; cases h
      | ok t =>
      rw [hrest, except_ok_bind] at h
      cases h
      obtain ⟨cs1, hcs1, hsum1, hlen1, hmem1⟩ :=
        routeLine_confs token o hsnap pts rr hline
      obtain ⟨cs2, hcs2, hsum2, hlen2, hmem2⟩ := ih t hrest
      refine ⟨cs1 ++ cs2, ?_, ?_, ?_, ?_⟩
      · unfold segConfsLines
        rw [hp, except_ok_bind, if_neg hemp, hcs1, except_ok_bind, hcs2,
          except_ok_bind]
      · simp [hsum1, hsum2]
      · simp [hlen1, hlen2]
      · intro c hc
        rcases List.mem_append.mp hc with hc | hc
        · exact hmem1 c hc
        · exact hmem2 c hc

/-- A list of rationals within [0, 1] sums to at most its length. -/
theorem sum_le_card (cs : List ℚ) (h : ∀ c ∈ cs, 0 ≤ c ∧ c ≤ 1) :
    0 ≤ cs.sum ∧ cs.sum ≤ (cs.length : ℚ) := by
  induction cs with
  | nil => simp
  | cons c rest ih =>
    have hc := h c (List.mem_cons_self c rest)
    have hrest := ih (fun x hx => h x (List.mem_cons_of_mem c hx))
    constructor
    · simpa using add_nonneg hc.1 hrest.1
    · simp only [List.sum_cons, List.length_cons, Nat.cast_succ]
      have := add_le_add hc.2 hrest.2
      linarith

/-- Each admissible per-segment confidence lies within [0, 1]. -/
theorem conf_case_bounds (c : ℚ)
    (h : c = 9/10 ∨ c = 1/2 ∨ c = 3/10 ∨
      ∃ k : ℤ, 1 ≤ k ∧ k ≤ 5 ∧ c = (k : ℚ)/5) :
    0 ≤ c ∧ c ≤ 1 := by
  rcases h with h | h | h | ⟨k, hk1, hk5, h⟩ <;> subst h
  · norm_num
  · norm_num
  · norm_num
  · have h1 : (1 : ℚ) ≤ (k : ℚ) := by exact_mod_cast hk1
    have h5 : (k : ℚ) ≤ 5 := by exact_mod_cast hk5
    constructor
    · apply div_nonneg <;> linarith
    · rw [div_le_one (by norm_num : (0:ℚ) < 5)]
      linarith

/-- C9: a successful `route_geometry` returns the arithmetic mean of the
per-segment confidences — each 0.9, 0.5, 0.3 or a stored 1–5 track
confidence divided by 5 — hence a value in [0, 1], and exactly 0 when the
input produced no segments. -/
theorem route_confidence_is_mean (token : String) (o : RoutingOracles)
    (g out : Json) (conf : ℚ)
    (hsnap : ∀ a b s t k, o.snap a b = .ok (some (s, t, k)) → 1 ≤ k ∧ k ≤ 5)
    (h : route_geometry token o g = .ok (out, conf)) :
    ∃ cs, segConfs token o g = .ok cs ∧
      (cs.length = 0 → conf = 0) ∧
      (cs.length ≠ 0 → conf = cs.sum / (cs.length : ℚ)) ∧
      (∀ c ∈ cs, c = 9/10 ∨ c = 1/2 ∨ c = 3/10 ∨
        ∃ k : ℤ, 1 ≤ k ∧ k ≤ 5 ∧ c = (k : ℚ)/5) ∧
      0 ≤ conf ∧ conf ≤ 1 := by
  unfold route_geometry at h
  split at h
  · cases h
  next ls hc =>
  cases hr : routeLines token o ls with
  | error e => rw [hr, except_error_bind] at h; cases h
  | ok r =>
  rw [hr, except_ok_bind] at h
  simp only [Except.ok.injEq, Prod.mk.injEq] at h
  obtain ⟨hout, hconf⟩ := h
  obtain ⟨cs, hcs, hsum, hlen, hmem⟩ := routeLines_confs token o hsnap ls r hr
  have hbounds : ∀ c ∈ cs, 0 ≤ c ∧ c ≤ 1 :=
    fun c hcmem => conf_case_bounds c (hmem c hcmem)
  have hsumb := sum_le_card cs hbounds
  refine ⟨cs, ?_, ?_, ?_, hmem, ?_⟩
  · unfold segConfs
    rw [hc]
    exact hcs
  · intro hl0
    rw [← hconf, hlen, hl0]
    simp
  · intro hlpos
    rw [← hconf, hlen, hsum]
    have hp : 0 < cs.length := Nat.pos_of_ne_zero hlpos
    rw [if_pos hp]
  · by_cases hl : cs.length = 0
    · have hz : conf = 0 := by
        rw [← hconf, hlen, hl]
        simp
      rw [hz]
      norm_num
    · have hpos : 0 < cs.length := Nat.pos_of_ne_zero hl
      have hposq : (0 : ℚ) < (cs.length : ℚ) := by exact_mod_cast hpos
      have hconf' : conf = cs.sum / (cs.length : ℚ) := by
        rw [← hconf, hlen, hsum]
        rw [if_pos hpos]
      rw [hconf']
      constructor
      · exact div_nonneg hsumb.1 (le_of_lt hposq)
      · rw [div_le_one hposq]
        exact hsumb.2

/-- Witness for C9 on a zero-segment input: the confidence is exactly 0
and the segment list is empty. -/
theorem route_confidence_is_mean_witness :
    ∃ cs, segConfs "" exOracles exSinglePointGeom = .ok cs ∧
      (cs.length = 0 → (0 : ℚ) = 0) ∧
      (cs.length ≠ 0 → (0 : ℚ) = cs.sum / (cs.length : ℚ)) ∧
      (∀ c ∈ cs, c = 9/10 ∨ c = 1/2 ∨ c = 3/10 ∨
        ∃ k : ℤ, 1 ≤ k ∧ k ≤ 5 ∧ c = (k : ℚ)/5) ∧
      (0 : ℚ) ≤ 0 ∧ (0 : ℚ) ≤ 1 :=
  route_confidence_is_mean "" exOracles exSinglePointGeom
    (buildMulti [[(3, 4)]]) 0
    (fun a b s t k hk => by simp [exOracles] at hk) rfl

-- ============================================
-- C8: simplifier properties
-- ============================================

theorem getLast?_append_right (xs ys : List Pt) (h : ys ≠ []) :
    (xs ++ ys).getLast? = ys.getLast? := by
  rw [List.getLast?_append]
  cases hy : ys.getLast? with
  | none => exact absurd (List.getLast?_eq_none_iff.mp hy) h
  | some v => rfl

theorem head?_eq_getD (l : List Pt) (h : l ≠ []) :
    l.head? = some (l.getD 0 (0, 0)) := by
  cases l with
  | nil => exact absurd rfl h
  | cons a t => rfl

theorem getLast?_eq_getD (l : List Pt) (h : l ≠ []) :
    l.getLast? = some (l.getD (l.length - 1) (0, 0)) := by
  rw [List.getLast?_eq_getElem?, List.getD_eq_getElem?_getD]
  cases hx : l[l.length - 1]? with
  | none => simp [List.getElem?_eq_none_iff] at hx; cases l <;> simp_all
  | some v => rfl

theorem head?_dropLast (l : List Pt) (h : 2 ≤ l.length) :
    l.dropLast.head? = l.head? := by
  cases l with
  | nil => simp at h
  | cons a t =>
    cases t with
    | nil => simp at h
    | cons b t' => simp [List.dropLast]

theorem head?_take_succ (l : List Pt) (k : Nat) (h : l ≠ []) :
    (l.take (k + 1)).head? = l.head? := by
  cases l with
  | nil => exact absurd rfl h
  | cons a t => rfl

theorem getLast?_drop_of_lt (l : List Pt) (i : Nat) (h : i < l.length) :
    (l.drop i).getLast? = l.getLast? := by
  have hne : l.drop i ≠ [] := by
    simp [List.drop_eq_nil_iff]
    omega
  conv_rhs => rw [← List.take_append_drop i l]
  rw [getLast?_append_right _ _ hne]

/-- Unfolding `rdp` in its base case. -/
theorem rdp_short (e2 : ℚ) (pts : List Pt) (h : pts.length < 3) :
    rdp e2 pts = pts := by
  unfold rdp
  rw [if_pos h]

/-- Unfolding `rdp` in its recursive case, with the scan result named. -/
theorem rdp_unfold (e2 : ℚ) (pts : List Pt) (h3 : ¬ pts.length < 3)
    (idx : Nat) (dmax : ℚ)
    (hscan : rdpScan (pts.getD 0 (0, 0)) (pts.getD (pts.length - 1) (0, 0))
      ((pts.drop 1).take (pts.length - 2)) 1 (0, 0) = (idx, dmax)) :
    rdp e2 pts =
      if e2 < dmax then
        (if 0 < idx ∧ idx < pts.length - 1 then
          (rdp e2 (pts.take (idx + 1))).dropLast ++ rdp e2 (pts.drop idx)
        else [pts.getD 0 (0, 0), pts.getD (pts.length - 1) (0, 0)])
      else [pts.getD 0 (0, 0), pts.getD (pts.length - 1) (0, 0)] := by
  conv_lhs => unfold rdp
  rw [if_neg h3, hscan]
  rfl

/-- Douglas–Peucker never produces more points than it was given. -/
theorem rdp_length_le (e2 : ℚ) : ∀ (n : Nat) (pts : List Pt),
    pts.length ≤ n → (rdp e2 pts).length ≤ pts.length := by
  intro n
  induction n with
  | zero =>
    intro pts h
    have h0 : pts = [] := List.eq_nil_of_length_eq_zero (Nat.le_zero.mp h)
    subst h0
    rw [rdp_short e2 [] (by simp)]
  | succ n ih =>
    intro pts hlen
    by_cases h3 : pts.length < 3
    · rw [rdp_short e2 pts h3]
    · rcases hscan : rdpScan (pts.getD 0 (0, 0)) (pts.getD (pts.length - 1) (0, 0))
        ((pts.drop 1).take (pts.length - 2)) 1 (0, 0) with ⟨idx, dmax⟩
      rw [rdp_unfold e2 pts h3 idx dmax hscan]
      by_cases hdm : e2 < dmax
      · rw [if_pos hdm]
        by_cases hidx : 0 < idx ∧ idx < pts.length - 1
        · rw [if_pos hidx]
          have htake : (pts.take (idx + 1)).length ≤ n := by
            simp only [List.length_take]
            omega
          have hdrop : (pts.drop idx).length ≤ n := by
            simp only [List.length_drop]
            omega
          have h1 := ih (pts.take (idx + 1)) htake
          have h2 := ih (pts.drop idx) hdrop
          simp only [List.length_take] at h1
          simp only [List.length_drop] at h2
          simp only [List.length_append, List.length_dropLast]
          omega
        · rw [if_neg hidx]
          simp only [List.length_cons, List.length_nil]
          omega
      · rw [if_neg hdm]
        simp only [List.length_cons, List.length_nil]
        omega

theorem head?_append_left (xs ys : List Pt) (a : Pt) (h : xs.head? = some a) :
    (xs ++ ys).head? = some a := by
  cases xs with
  | nil => simp at h
  | cons b t => simpa using h

/-- Douglas–Peucker keeps at least the two endpoints of a line with at
least two points. -/
theorem rdp_two_le (e2 : ℚ) : ∀ (n : Nat) (pts : List Pt),
    pts.length ≤ n → 2 ≤ pts.length → 2 ≤ (rdp e2 pts).length := by
  intro n
  induction n with
  | zero =>
    intro pts h h2
    omega
  | succ n ih =>
    intro pts hlen h2
    by_cases h3 : pts.length < 3
    · rw [rdp_short e2 pts h3]
      exact h2
    · rcases hscan : rdpScan (pts.getD 0 (0, 0)) (pts.getD (pts.length - 1) (0, 0))
        ((pts.drop 1).take (pts.length - 2)) 1 (0, 0) with ⟨idx, dmax⟩
      rw [rdp_unfold e2 pts h3 idx dmax hscan]
      by_cases hdm : e2 < dmax
      · rw [if_pos hdm]
        by_cases hidx : 0 < idx ∧ idx < pts.length - 1
        · rw [if_pos hidx]
          have h1 := ih (pts.take (idx + 1))
            (by simp only [List.length_take]; omega)
            (by simp only [List.length_take]; omega)
          have hy := ih (pts.drop idx)
            (by simp only [List.length_drop]; omega)
            (by simp only [List.length_drop]; omega)
          simp only [List.length_append, List.length_dropLast]
          omega
        · rw [if_neg hidx]
          simp only [List.length_cons, List.length_nil]
          omega
      · rw [if_neg hdm]
        simp only [List.length_cons, List.length_nil]
        omega

/-- Douglas–Peucker preserves the first point of a line. -/
theorem rdp_head (e2 : ℚ) : ∀ (n : Nat) (pts : List Pt),
    pts.length ≤ n → pts ≠ [] → (rdp e2 pts).head? = pts.head? := by
  intro n
  induction n with
  | zero =>
    intro pts h hne
    have h0 : pts = [] := List.eq_nil_of_length_eq_zero (Nat.le_zero.mp h)
    exact absurd h0 hne
  | succ n ih =>
    intro pts hlen hne
    by_cases h3 : pts.length < 3
    · rw [rdp_short e2 pts h3]
    · rcases hscan : rdpScan (pts.getD 0 (0, 0)) (pts.getD (pts.length - 1) (0, 0))
        ((pts.drop 1).take (pts.length - 2)) 1 (0, 0) with ⟨idx, dmax⟩
      rw [rdp_unfold e2 pts h3 idx dmax hscan]
      have hfirst : pts.head? = some (pts.getD 0 (0, 0)) := head?_eq_getD pts hne
      by_cases hdm : e2 < dmax
      · rw [if_pos hdm]
        by_cases hidx : 0 < idx ∧ idx < pts.length - 1
        · rw [if_pos hidx]
          have htne : pts.take (idx + 1) ≠ [] := by
            intro hcon
            have := congrArg List.length hcon
            simp only [List.length_take, List.length_nil] at this
            omega
          have hX2 : 2 ≤ (rdp e2 (pts.take (idx + 1))).length :=
            rdp_two_le e2 n (pts.take (idx + 1))
              (by simp only [List.length_take]; omega)
              (by simp only [List.length_take]; omega)
          have hXhead : (rdp e2 (pts.take (idx + 1))).head? = pts.head? := by
            rw [ih (pts.take (idx + 1)) (by simp only [List.length_take]; omega) htne]
            exact head?_take_succ pts idx hne
          rw [hfirst] at hXhead ⊢
          have hdrophead : (rdp e2 (pts.take (idx + 1))).dropLast.head? =
              some (pts.getD 0 (0, 0)) := by
            rw [head?_dropLast _ hX2]
            exact hXhead
          exact head?_append_left _ _ _ hdrophead
        · rw [if_neg hidx]
          rw [hfirst]
          rfl
      · rw [if_neg hdm]
        rw [hfirst]
        rfl

/-- Douglas–Peucker preserves the last point of a line. -/
theorem rdp_last (e2 : ℚ) : ∀ (n : Nat) (pts : List Pt),
    pts.length ≤ n → pts ≠ [] → (rdp e2 pts).getLast? = pts.getLast? := by
  intro n
  induction n with
  | zero =>
    intro pts h hne
    have h0 : pts = [] := List.eq_nil_of_length_eq_zero (Nat.le_zero.mp h)
    exact absurd h0 hne
  | succ n ih =>
    intro pts hlen hne
    by_cases h3 : pts.length < 3
    · rw [rdp_short e2 pts h3]
    · rcases hscan : rdpScan (pts.getD 0 (0, 0)) (pts.getD (pts.length - 1) (0, 0))
        ((pts.drop 1).take (pts.length - 2)) 1 (0, 0) with ⟨idx, dmax⟩
      rw [rdp_unfold e2 pts h3 idx dmax hscan]
      have hlast : pts.getLast? = some (pts.getD (pts.length - 1) (0, 0)) :=
        getLast?_eq_getD pts hne
      by_cases hdm : e2 < dmax
      · rw [if_pos hdm]
        by_cases hidx : 0 < idx ∧ idx < pts.length - 1
        · rw [if_pos hidx]
          have hdropne : pts.drop idx ≠ [] := by
            intro hcon
            have := congrArg List.length hcon
            simp only [List.length_drop, List.length_nil] at this
            omega
          have hY2 : 2 ≤ (rdp e2 (pts.drop idx)).length :=
            rdp_two_le e2 n (pts.drop idx)
              (by simp only [List.length_drop]; omega)
              (by simp only [List.length_drop]; omega)
          have hYne : rdp e2 (pts.drop idx) ≠ [] := by
            intro hcon
            rw [hcon] at hY2
            simp at hY2
          rw [getLast?_append_right _ _ hYne]
          rw [ih (pts.drop idx) (by simp only [List.length_drop]; omega) hdropne]
          exact getLast?_drop_of_lt pts idx (by omega)
        · rw [if_neg hidx]
          rw [hlast]
          rfl
      · rw [if_neg hdm]
        rw [hlast]
        rfl

/-- C8: a successful `simplify_geometry` run drops every input line with
fewer than 2 points and simplifies exactly the remaining lines; each of
those is never longer than its input and keeps its first and last
coordinate exactly. -/
theorem simplify_spec (g : Json) (e2 : ℚ) (out : Json)
    (h : simplify_geometry g e2 = .ok out) :
    ∃ ls lines, (g.key "coordinates").asArr = some ls ∧
      simplify_geometry.lsParse ls = .ok lines ∧
      out = buildMulti ((lines.filter (fun l => 2 ≤ l.length)).map (rdp e2)) ∧
      ∀ l ∈ lines, 2 ≤ l.length →
        ((rdp e2 l).length ≤ l.length ∧
         (rdp e2 l).head? = l.head? ∧
         (rdp e2 l).getLast? = l.getLast?) := by
  unfold simplify_geometry at h
  split at h
  · cases h
  next ls hc =>
  cases hp : simplify_geometry.lsParse ls with
  | error e => rw [hp, except_error_bind] at h; cases h
  | ok lines =>
  rw [hp, except_ok_bind] at h
  cases h
  refine ⟨ls, lines, hc, hp, rfl, ?_⟩
  intro l hl h2
  have hne : l ≠ [] := by
    intro hcon
    rw [hcon] at h2
    simp at h2
  exact ⟨rdp_length_le e2 l.length l le_rfl,
         rdp_head e2 l.length l le_rfl hne,
         rdp_last e2 l.length l le_rfl hne⟩

/-- Witness for C8: the one-point line is dropped, the two-point line
survives with its endpoints. -/
theorem simplify_spec_witness :
    ∃ ls lines,
      (exSimplifyGeom.key "coordinates").asArr = some ls ∧
      simplify_geometry.lsParse ls = .ok lines ∧
      buildMulti [[(0, 1), (2, 3)]] =
        buildMulti ((lines.filter (fun l => 2 ≤ l.length)).map
          (rdp simplifyEps2)) ∧
      ∀ l ∈ lines, 2 ≤ l.length →
        ((rdp simplifyEps2 l).length ≤ l.length ∧
         (rdp simplifyEps2 l).head? = l.head? ∧
         (rdp simplifyEps2 l).getLast? = l.getLast?) :=
  simplify_spec exSimplifyGeom simplifyEps2 (buildMulti [[(0, 1), (2, 3)]])
    (by
      have hr : rdp simplifyEps2 [((0 : ℚ), (1 : ℚ)), ((2 : ℚ), (3 : ℚ))] =
          [(0, 1), (2, 3)] := rdp_short _ _ (by simp)
      unfold simplify_geometry
      simp [exSimplifyGeom, Json.key, Json.asArr, simplify_geometry.lsParse,
        parseLine, extractPts, extractPt, Json.asNum, except_ok_bind, hr,
        buildMulti])
